import Mathlib

/-!
Verification of the WooCommerce stock-synchronisation engine
(`woocommerce_sync.py`) against its design specification.

The Python source is shallowly embedded: every definition below mirrors a
function or code block of `woocommerce_sync.py` (line references in the doc
comments).  Network effects are made explicit:
* the upstream stock fetch is a parameter `stock_result : Except String (List StockRecord)`;
* the paginated downstream listing is a parameter `pages : Nat → Except String (List CatalogEntry)`
  together with a fuel bound modelling the unbounded `while True` loop;
* per-operation success/failure is an oracle `fails : Operation → Bool`
  (resp. `fails : Nat → Bool` per attempt for the retry loop).
-/

namespace WooSync

/-- Upstream stock record (one element of the Bluefin `stock` array).
Fields are the ones the engine reads: `sku`, `properties.item_spec`
(optional, read via `item.get("properties", {}).get("item_spec")`),
`price` and `in_stock`.  The remaining payload fields (`model`, `color`,
`cat_name`, `ean`, `image`, `full_name`) are only copied verbatim into the
create payload and are not needed by any claim, so they are omitted from
the record. -/
structure StockRecord where
  sku : String
  item_spec : Option String
  price : Int
  in_stock : Int
deriving DecidableEq, Repr

/-- Downstream catalog entry (one element of the WooCommerce `products`
listing).  The engine reads `p["id"]` and `p["sku"]`; the SKU may be absent
(`none`) or present-but-empty (`some ""`), both of which Python's
`p.get("sku")` truthiness test treats alike. -/
structure CatalogEntry where
  id : Nat
  sku : Option String
deriving DecidableEq, Repr

/-- The configuration fields consumed by the reconciliation logic
(`Config` dataclass, `woocommerce_sync.py` lines 24-38; credentials and
description/photo toggles only shape the create payload and are omitted). -/
structure Config where
  set_missing_sku_to_zero : Bool
  set_no_sku_to_zero : Bool
  track_cost_price : Bool
  blacklist_skus : List String
deriving DecidableEq, Repr

/-- Blacklist parsing of `Config.from_file` (lines 48-49):
`{sku.strip() for sku in blacklist_skus_str.split(',') if sku.strip()}`.
Python builds a set; we keep the list of kept items, membership being all
the engine ever asks of it. -/
def parse_blacklist (s : String) : List String :=
  ((s.splitOn ",").map String.trim).filter (fun t => t ≠ "")

/-- Embeds `is_blacklisted` (lines 89-91): `sku in self.config.blacklist_skus`. -/
def is_blacklisted (bl : List String) (sku : String) : Bool :=
  sku ∈ bl

/-- Characters accepted by the character class `[a-zA-Z0-9_-]` of the SKU
validation regex (line 87). -/
def allowedSkuChar (c : Char) : Bool :=
  ('a' ≤ c && c ≤ 'z') || ('A' ≤ c && c ≤ 'Z') || ('0' ≤ c && c ≤ '9') ||
    c == '-' || c == '_'

/-- Embeds `validate_sku` (lines 83-87): `bool(re.match(r"^[a-zA-Z0-9_-]+$", sku))`.
Python's `$` (without `re.MULTILINE`) matches at the end of the string *or
just before a single newline at the end of the string*, so the regex also
accepts a valid body followed by one trailing `'\n'`.  The embedding
reproduces exactly that semantics. -/
def validate_sku (sku : String) : Bool :=
  let cs := sku.data
  if cs.getLast? == some '\n' then
    !cs.dropLast.isEmpty && cs.dropLast.all allowedSkuChar
  else
    !cs.isEmpty && cs.all allowedSkuChar

/-- Embeds `filter_stock` (lines 107-113): keeps an item iff
`item.get("properties", {}).get("item_spec") in ["EU Spec", "Global spec"]`
and `not self.is_blacklisted(item.get("sku", ""))`. -/
def filter_stock (bl : List String) (data : List StockRecord) : List StockRecord :=
  data.filter (fun item =>
    (item.item_spec == some "EU Spec" || item.item_spec == some "Global spec") &&
      !is_blacklisted bl item.sku)

/-- Python truthiness of `p.get("sku")`: false for a missing key (`none`)
and for the empty string. -/
def has_truthy_sku (e : CatalogEntry) : Bool :=
  match e.sku with
  | some s => s ≠ ""
  | none => false

/-- One Python dict assignment `m[k] = v`: overwrite in place if the key is
present, else append (Python dicts preserve insertion order). -/
def dict_insert (m : List (String × CatalogEntry)) (k : String) (v : CatalogEntry) :
    List (String × CatalogEntry) :=
  if m.any (fun p => p.1 == k) then
    m.map (fun p => if p.1 == k then (k, v) else p)
  else
    m ++ [(k, v)]

/-- One iteration of the index-building dict comprehension (lines 201-205):
process entry `e`, keeping it only under the guard
`p.get("sku") and not self.is_blacklisted(p["sku"])`. -/
def index_step (bl : List String) (m : List (String × CatalogEntry))
    (e : CatalogEntry) : List (String × CatalogEntry) :=
  match e.sku with
  | some s => if s ≠ "" && !is_blacklisted bl s then dict_insert m s e else m
  | none => m

/-- The catalog index (lines 201-205): the dict comprehension
`{p["sku"]: p for p in existing_products if p.get("sku") and not self.is_blacklisted(p["sku"])}`,
embedded as a left fold of dict assignments over the listing. -/
def build_index (bl : List String) (entries : List CatalogEntry) :
    List (String × CatalogEntry) :=
  entries.foldl (index_step bl) []

/-- Dict lookup `m[s]` / `s in m`. -/
def index_find (m : List (String × CatalogEntry)) (s : String) : Option CatalogEntry :=
  (m.find? (fun p => p.1 == s)).map Prod.snd

/-- The operations the run dispatches to the worker pool: a product
creation (`wcapi.post`, lines 227-233), a stock/cost update
(`update_product`, lines 217-225) and a stock-to-zero update
(`update_product(id, 0)`, lines 242-248 and 254-260). -/
inductive Operation where
  | create (r : StockRecord)
  | updateStock (id : Nat) (qty : Int) (cost : Option Int)
  | zeroStock (id : Nat)
deriving DecidableEq, Repr

/-- Cost-price argument of an update (line 223):
`product["price"] if self.config.track_cost_price else None`. -/
def cost_of (cfg : Config) (r : StockRecord) : Option Int :=
  if cfg.track_cost_price then some r.price else none

/-- The operation submitted for one filtered record (lines 212-233):
skip on invalid SKU, update when the SKU is indexed, create otherwise. -/
def create_update_op (cfg : Config) (index : List (String × CatalogEntry))
    (r : StockRecord) : Option Operation :=
  if validate_sku r.sku then
    match index_find index r.sku with
    | some e => some (.updateStock e.id r.in_stock (cost_of cfg r))
    | none => some (.create r)
  else
    none

/-- The `json_skus` set (line 237): `{p["sku"] for p in filtered_stock}`. -/
def json_skus (filtered : List StockRecord) : List String :=
  filtered.map StockRecord.sku

/-- Condition of the missing-SKU zeroing loop for one entry (lines
238-241): truthy SKU, SKU not in `json_skus`, SKU not blacklisted. -/
def missing_zero_op (cfg : Config) (filtered : List StockRecord)
    (e : CatalogEntry) : Option Operation :=
  match e.sku with
  | some s =>
      if s ≠ "" && !(s ∈ json_skus filtered) && !is_blacklisted cfg.blacklist_skus s then
        some (.zeroStock e.id)
      else
        none
  | none => none

/-- The missing-SKU zeroing rule (lines 236-248): for every entry of the
full listing with a truthy SKU not in `json_skus` and not blacklisted,
submit `update_product(id, 0)`. -/
def missing_sku_ops (cfg : Config) (filtered : List StockRecord)
    (existing : List CatalogEntry) : List Operation :=
  if cfg.set_missing_sku_to_zero then
    existing.filterMap (missing_zero_op cfg filtered)
  else
    []

/-- Condition of the no-SKU zeroing loop for one entry (lines 252-253):
`p.get("sku")` falsy. -/
def no_sku_zero_op (e : CatalogEntry) : Option Operation :=
  if has_truthy_sku e then none else some (.zeroStock e.id)

/-- The no-SKU zeroing rule (lines 251-260): for every entry of the full
listing whose `p.get("sku")` is falsy, submit `update_product(id, 0)`. -/
def no_sku_ops (cfg : Config) (existing : List CatalogEntry) : List Operation :=
  if cfg.set_no_sku_to_zero then
    existing.filterMap no_sku_zero_op
  else
    []

/-- The complete list of operations submitted to the executor during one
run of `sync_products` (lines 207-260), in submission order. -/
def plan_ops (cfg : Config) (filtered : List StockRecord)
    (existing : List CatalogEntry) : List Operation :=
  let index := build_index cfg.blacklist_skus existing
  filtered.filterMap (create_update_op cfg index) ++
    missing_sku_ops cfg filtered existing ++ no_sku_ops cfg existing

/-- The retry loop of `update_product` (lines 165-187), driven by an oracle
`fails attempt` saying whether the `wcapi.put` of that attempt raises.
`attempt` is the loop counter, `remaining` the attempts left out of
`max_retries = 3`.  Result: `(success, attempts made, sleep delays)`;
`success = false` embeds the final `raise`, and each recorded delay is the
`time.sleep(2 ** attempt)` executed after a non-final failed attempt. -/
def update_product_go (fails : Nat → Bool) : Nat → Nat → Bool × Nat × List Nat
  | _, 0 => (true, 0, [])
  | attempt, remaining + 1 =>
    if fails attempt then
      if remaining = 0 then
        (false, 1, [])
      else
        let r := update_product_go fails (attempt + 1) remaining
        (r.1, r.2.1 + 1, 2 ^ attempt :: r.2.2)
    else
      (true, 1, [])

/-- Embeds `update_product` (lines 165-187) with `max_retries = 3`. -/
def update_product_run (fails : Nat → Bool) : Bool × Nat × List Nat :=
  update_product_go fails 0 3

/-- How many downstream calls one submitted operation makes: a create is a
single bare `wcapi.post` (line 229, no retry wrapper), while updates and
zeroings go through `update_product`'s retry loop. -/
def op_attempt_count (fails : Nat → Bool) : Operation → Nat
  | .create _ => 1
  | .updateStock _ _ _ => (update_product_run fails).2.1
  | .zeroStock _ => (update_product_run fails).2.1

/-- One iteration structure of `fetch_all_woo_products` (lines 115-131):
page numbers start at 1, an empty page breaks the loop, pages are
concatenated in order, and a page error is re-raised (line 129).  `fuel`
bounds the unbounded `while True`; `none` means the loop has not
terminated within the fuel. -/
def fetch_all_aux (pages : Nat → Except String (List CatalogEntry)) :
    Nat → Nat → Option (Except String (List CatalogEntry))
  | 0, _ => none
  | fuel + 1, page =>
    match pages page with
    | .error e => some (.error e)
    | .ok [] => some (.ok [])
    | .ok (x :: xs) =>
      match fetch_all_aux pages fuel (page + 1) with
      | none => none
      | some (.error e) => some (.error e)
      | some (.ok rest) => some (.ok ((x :: xs) ++ rest))

/-- Embeds `fetch_all_woo_products` (lines 115-131): pagination starts at page 1. -/
def fetch_all_woo_products (pages : Nat → Except String (List CatalogEntry))
    (fuel : Nat) : Option (Except String (List CatalogEntry)) :=
  fetch_all_aux pages fuel 1

/-- Outcome of one `sync_products` run together with `main`'s reaction
(lines 189-279).  `failedBeforeExec` is an exception raised during the
fetch phase (before any operation is submitted); `execFailed` is an
exception re-raised by `future.result()` (line 264) after every operation
of the plan has already been submitted to the pool; `doneOk` is the
successful run that logs "Synchronization completed successfully". -/
inductive SyncOutcome where
  | failedBeforeExec (e : String)
  | execFailed (submitted : List Operation)
  | doneOk (submitted : List Operation)
deriving DecidableEq, Repr

/-- The operations submitted to the worker pool in a given outcome.  The
`ThreadPoolExecutor` context manager (line 208) waits for all submitted
futures on exit and none are cancelled, so every submitted operation runs
even when a sibling's `future.result()` later re-raises. -/
def executed_ops : SyncOutcome → List Operation
  | .failedBeforeExec _ => []
  | .execFailed l => l
  | .doneOk l => l

/-- Embeds `sync_products` (lines 189-270).  `stock_result` is the outcome of
`fetch_stock_data` (the `stock` array), `pages` the downstream listing,
`fails op` whether the submitted operation `op` ultimately raises (a create
failing its single call, an update failing all retry attempts).  The
result-collection loop `for future in futures: future.result()` (lines
262-264) re-raises the first failure, which `sync_products` logs and
re-raises (lines 268-270). -/
def sync_products (cfg : Config) (stock_result : Except String (List StockRecord))
    (pages : Nat → Except String (List CatalogEntry)) (fuel : Nat)
    (fails : Operation → Bool) : Option SyncOutcome :=
  match stock_result with
  | .error e => some (.failedBeforeExec e)
  | .ok stock =>
    match fetch_all_woo_products pages fuel with
    | none => none
    | some (.error e) => some (.failedBeforeExec e)
    | some (.ok existing) =>
      let plan := plan_ops cfg (filter_stock cfg.blacklist_skus stock) existing
      some (if plan.any fails then .execFailed plan else .doneOk plan)

/-- Embeds `main` (lines 272-279): any exception escaping `sync_products` is
caught and turned into `sys.exit(1)`; otherwise the process exits 0. -/
def main_exit_code : SyncOutcome → Nat
  | .doneOk _ => 0
  | .execFailed _ => 1
  | .failedBeforeExec _ => 1

/-- Specification-side predicate: the entry would be stored in the catalog
index under key `s` (it carries exactly that SKU and the key passes the
comprehension's guard).  Used to characterise `build_index`. -/
def entry_keyed (bl : List String) (s : String) (e : CatalogEntry) : Bool :=
  e.sku == some s && (s ≠ "" && !is_blacklisted bl s)

/-- Specification-side predicate for C3/C10: the operation mentions the
SKU `s`, either directly (a create of a record with that SKU) or through
the catalog entry its target id belongs to. -/
def op_references (existing : List CatalogEntry) (s : String) : Operation → Prop
  | .create r => r.sku = s
  | .updateStock i _ _ => ∃ e ∈ existing, e.id = i ∧ e.sku = some s
  | .zeroStock i => ∃ e ∈ existing, e.id = i ∧ e.sku = some s

/-- Specification-side pages function for C9: page `i ≥ 1` serves the
`(i-1)`-th block of `L`, and every page past the end of `L` is empty. -/
def pages_of_list (L : List (List CatalogEntry)) (i : Nat) :
    Except String (List CatalogEntry) :=
  .ok ((L.get? (i - 1)).getD [])

end WooSync

namespace WooSync

/-! ### Helper lemmas: the catalog index -/

/-- Overwriting assignment: looking up the assigned key finds the new value. -/
theorem index_find_map_self (m : List (String × CatalogEntry)) (k : String)
    (v : CatalogEntry) (hk : m.any (fun p => p.1 == k) = true) :
    index_find (m.map (fun p => if p.1 == k then (k, v) else p)) k = some v := by
  induction m with
  | nil => simp at hk
  | cons p m ih =>
    by_cases hp : (p.1 == k) = true
    · have hfp : (if (p.1 == k) = true then (k, v) else p) = (k, v) := if_pos hp
      have hkk : ((k, v).1 == k) = true := by simp
      simp only [index_find, List.map_cons, hfp, List.find?_cons, hkk]
      rfl
    · have hpb : (p.1 == k) = false := by simpa using hp
      simp only [List.any_cons, Bool.or_eq_true] at hk
      rcases hk with hk | hk
      · exact absurd hk hp
      · have hfp : (if (p.1 == k) = true then (k, v) else p) = p := if_neg hp
        unfold index_find at ih ⊢
        rw [List.map_cons, hfp]
        simp only [List.find?_cons, hpb]
        exact ih hk

/-- Overwriting assignment: lookups of other keys are unchanged. -/
theorem index_find_map_other (m : List (String × CatalogEntry)) (k s : String)
    (v : CatalogEntry) (hs : s ≠ k) :
    index_find (m.map (fun p => if p.1 == k then (k, v) else p)) s =
      index_find m s := by
  induction m with
  | nil => rfl
  | cons p m ih =>
    by_cases hp : (p.1 == k) = true
    · have hpk : p.1 = k := by simpa using hp
      have hfp : (if (p.1 == k) = true then (k, v) else p) = (k, v) := if_pos hp
      have h1 : ((k, v).1 == s) = false := by
        rw [beq_eq_false_iff_ne]
        intro h
        exact hs h.symm
      have h2 : (p.1 == s) = false := by
        rw [beq_eq_false_iff_ne, hpk]
        intro h
        exact hs h.symm
      simp only [index_find, List.map_cons, hfp, List.find?_cons, h1, h2]
      exact ih
    · have hpb : (p.1 == k) = false := by simpa using hp
      have hfp : (if (p.1 == k) = true then (k, v) else p) = p := if_neg hp
      by_cases hps : (p.1 == s) = true
      · simp only [index_find, List.map_cons, hfp, List.find?_cons, hps]
      · have hpsb : (p.1 == s) = false := by simpa using hps
        simp only [index_find, List.map_cons, hfp, List.find?_cons, hpsb]
        exact ih

/-- A Python dict assignment `m[k] = v` seen through lookups. -/
theorem index_find_dict_insert (m : List (String × CatalogEntry)) (k s : String)
    (v : CatalogEntry) :
    index_find (dict_insert m k v) s = if s = k then some v else index_find m s := by
  unfold dict_insert
  by_cases hk : m.any (fun p => p.1 == k) = true
  · rw [if_pos hk]
    by_cases hs : s = k
    · subst hs; rw [if_pos rfl]; exact index_find_map_self m s v hk
    · rw [if_neg hs]; exact index_find_map_other m k s v hs
  · rw [if_neg hk]
    unfold index_find
    rw [List.find?_append]
    by_cases hs : s = k
    · subst hs
      have h1 : m.find? (fun p => p.1 == s) = none := by
        rw [List.find?_eq_none]
        intro p hp hps
        exact hk (List.any_eq_true.mpr ⟨p, hp, hps⟩)
      simp [h1, List.find?_cons]
    · have h1 : (k == s) = false := by
        rw [beq_eq_false_iff_ne]
        intro h
        exact hs h.symm
      cases h : m.find? (fun p => p.1 == s) <;>
        simp [h, List.find?_cons, h1, hs]

/-- One index-building iteration, seen through lookups: the processed
entry overrides the key it qualifies for and nothing else. -/
theorem index_find_index_step (bl : List String) (m : List (String × CatalogEntry))
    (e : CatalogEntry) (s : String) :
    index_find (index_step bl m e) s =
      if entry_keyed bl s e then some e else index_find m s := by
  cases he : e.sku with
  | none =>
    have hq : entry_keyed bl s e = false := by simp [entry_keyed, he]
    simp [index_step, he, hq]
  | some t =>
    simp only [index_step, he]
    by_cases hcond : (decide (t ≠ "") && !is_blacklisted bl t) = true
    · rw [if_pos hcond, index_find_dict_insert]
      by_cases hst : s = t
      · subst hst
        have hq : entry_keyed bl s e = true := by
          have hc := hcond
          simp only [Bool.and_eq_true, decide_eq_true_eq, Bool.not_eq_true'] at hc
          simp [entry_keyed, he, hc.1, hc.2]
        simp [hq]
      · have hq : entry_keyed bl s e = false := by
          have : (e.sku == some s) = false := by
            rw [he, beq_eq_false_iff_ne]
            intro h
            exact hst (Option.some.inj h).symm
          simp [entry_keyed, this]
        simp [hq, hst]
    · rw [if_neg hcond]
      have hq : entry_keyed bl s e = false := by
        by_cases hst : s = t
        · subst hst
          unfold entry_keyed
          rw [he]
          simpa using hcond
        · have : (e.sku == some s) = false := by
            rw [he, beq_eq_false_iff_ne]
            intro h
            exact hst (Option.some.inj h).symm
          simp [entry_keyed, this]
      simp [hq]

/-- The catalog-index fold, characterised: a lookup returns the last
qualifying entry of the processed listing, falling back to the
accumulator. -/
theorem index_find_foldl (bl : List String) (es : List CatalogEntry)
    (m : List (String × CatalogEntry)) (s : String) :
    index_find (es.foldl (index_step bl) m) s
      = ((es.filter (entry_keyed bl s)).getLast?).or (index_find m s) := by
  induction es generalizing m with
  | nil => simp
  | cons e es ih =>
    rw [List.foldl_cons, ih, index_find_index_step]
    by_cases hq : entry_keyed bl s e = true
    · rw [if_pos hq, List.filter_cons, if_pos hq, List.getLast?_cons]
      cases hA : (es.filter (entry_keyed bl s)).getLast? <;>
        simp [hA, Option.or]
    · rw [if_neg hq, List.filter_cons,
        if_neg (by simpa using Bool.not_eq_true _ ▸ hq)]

/-- Looking up a SKU in the catalog index returns the last entry of the
listing that carries that SKU and passes the guard ("last-seen wins"). -/
theorem index_find_build (bl : List String) (entries : List CatalogEntry)
    (s : String) :
    index_find (build_index bl entries) s =
      (entries.filter (entry_keyed bl s)).getLast? := by
  unfold build_index
  rw [index_find_foldl]
  simp [index_find]

/-- Everything a successful index lookup guarantees about its result. -/
theorem index_find_some (bl : List String) (entries : List CatalogEntry)
    (s : String) (e : CatalogEntry)
    (h : index_find (build_index bl entries) s = some e) :
    e ∈ entries ∧ e.sku = some s ∧ s ≠ "" ∧ ¬ s ∈ bl := by
  rw [index_find_build] at h
  have hmem : e ∈ entries.filter (entry_keyed bl s) :=
    List.mem_of_mem_getLast? h
  rcases List.mem_filter.mp hmem with ⟨he, hq⟩
  simp only [entry_keyed, Bool.and_eq_true, beq_iff_eq, Bool.not_eq_true',
    decide_eq_true_eq] at hq
  refine ⟨he, hq.1, hq.2.1, ?_⟩
  have := hq.2.2
  simp only [is_blacklisted, decide_eq_false_iff_not] at this
  exact this

/-- A blacklisted SKU is never a key of the catalog index. -/
theorem index_find_blacklisted (bl : List String) (entries : List CatalogEntry)
    (s : String) (hs : s ∈ bl) :
    index_find (build_index bl entries) s = none := by
  rw [index_find_build]
  have : entries.filter (entry_keyed bl s) = [] := by
    rw [List.filter_eq_nil_iff]
    intro e _ hq
    simp only [entry_keyed, Bool.and_eq_true, beq_iff_eq, Bool.not_eq_true',
      decide_eq_true_eq] at hq
    have := hq.2.2
    simp only [is_blacklisted, decide_eq_false_iff_not] at this
    exact this hs
  rw [this]
  rfl


/-- Membership in a dict after an assignment. -/
theorem mem_dict_insert (m : List (String × CatalogEntry)) (k : String)
    (v : CatalogEntry) (p : String × CatalogEntry) (h : p ∈ dict_insert m k v) :
    p = (k, v) ∨ p ∈ m := by
  unfold dict_insert at h
  by_cases hk : (m.any fun p => p.1 == k) = true
  · rw [if_pos hk] at h
    rcases List.mem_map.mp h with ⟨q, hq, hfq⟩
    by_cases hqk : (q.1 == k) = true
    · left
      rw [← hfq, if_pos hqk]
    · right
      rw [← hfq, if_neg hqk]
      exact hq
  · rw [if_neg hk] at h
    rcases List.mem_append.mp h with h | h
    · right
      exact h
    · left
      simpa using h

/-- Every pair of the catalog index stores under its own (guard-passing)
SKU: the index never holds an empty or blacklisted key, and the stored
entry carries exactly the key as its SKU. -/
theorem build_index_pairs (bl : List String) (entries : List CatalogEntry) :
    ∀ p ∈ build_index bl entries,
      p.2.sku = some p.1 ∧ p.1 ≠ "" ∧ ¬ p.1 ∈ bl := by
  have key : ∀ (es : List CatalogEntry) (m : List (String × CatalogEntry)),
      (∀ p ∈ m, p.2.sku = some p.1 ∧ p.1 ≠ "" ∧ ¬ p.1 ∈ bl) →
      ∀ p ∈ es.foldl (index_step bl) m,
        p.2.sku = some p.1 ∧ p.1 ≠ "" ∧ ¬ p.1 ∈ bl := by
    intro es
    induction es with
    | nil =>
      intro m hm
      simpa using hm
    | cons e es ih =>
      intro m hm
      rw [List.foldl_cons]
      apply ih
      intro p hp
      cases he : e.sku with
      | none =>
        refine hm p ?_
        simpa [index_step, he] using hp
      | some t =>
        simp only [index_step, he] at hp
        by_cases hcond : (decide (t ≠ "") && !is_blacklisted bl t) = true
        · rw [if_pos hcond] at hp
          rcases mem_dict_insert m t e p hp with rfl | hpm
          · have hc := hcond
            simp only [Bool.and_eq_true, decide_eq_true_eq,
              Bool.not_eq_true'] at hc
            refine ⟨he, hc.1, ?_⟩
            have := hc.2
            simp only [is_blacklisted, decide_eq_false_iff_not] at this
            exact this
          · exact hm p hpm
        · rw [if_neg hcond] at hp
          exact hm p hp
  unfold build_index
  exact key entries [] (by simp)

/-- Key list of a dict after an assignment. -/
theorem dict_insert_keys (m : List (String × CatalogEntry)) (k : String)
    (v : CatalogEntry) :
    (dict_insert m k v).map Prod.fst =
      if m.any (fun p => p.1 == k) then m.map Prod.fst
      else m.map Prod.fst ++ [k] := by
  unfold dict_insert
  by_cases hk : (m.any fun p => p.1 == k) = true
  · rw [if_pos hk, if_pos hk]
    induction m with
    | nil => rfl
    | cons p m ih =>
      by_cases hp : (p.1 == k) = true
      · have hpk : p.1 = k := by simpa using hp
        have hfp : (if (p.1 == k) = true then (k, v) else p) = (k, v) := if_pos hp
        simp only [List.map_cons, hfp]
        by_cases hm : (m.any fun p => p.1 == k) = true
        · rw [ih hm, hpk]
        · congr 1
          · exact hpk.symm
          · have : (m.map fun p => if (p.1 == k) = true then (k, v) else p) = m.map id := by
              apply List.map_congr_left
              intro q hq
              have hqk : ¬ (q.1 == k) = true := fun hqk =>
                hm (List.any_eq_true.mpr ⟨q, hq, hqk⟩)
              rw [if_neg hqk]
              rfl
            rw [this, List.map_id]
      · have hfp : (if (p.1 == k) = true then (k, v) else p) = p := if_neg hp
        simp only [List.any_cons, Bool.or_eq_true] at hk
        rcases hk with hk | hk
        · exact absurd hk hp
        · simp only [List.map_cons, hfp, ih hk]
  · rw [if_neg hk, if_neg hk, List.map_append]
    rfl

/-- The catalog index has pairwise-distinct keys: at most one entry per SKU. -/
theorem build_index_keys_nodup (bl : List String) (entries : List CatalogEntry) :
    ((build_index bl entries).map Prod.fst).Nodup := by
  have key : ∀ (es : List CatalogEntry) (m : List (String × CatalogEntry)),
      (m.map Prod.fst).Nodup →
      ((es.foldl (index_step bl) m).map Prod.fst).Nodup := by
    intro es
    induction es with
    | nil =>
      intro m hm
      simpa using hm
    | cons e es ih =>
      intro m hm
      rw [List.foldl_cons]
      apply ih
      cases he : e.sku with
      | none => simpa [index_step, he] using hm
      | some t =>
        simp only [index_step, he]
        by_cases hcond : (decide (t ≠ "") && !is_blacklisted bl t) = true
        · rw [if_pos hcond, dict_insert_keys]
          by_cases hk : (m.any fun p => p.1 == t) = true
          · rw [if_pos hk]
            exact hm
          · rw [if_neg hk, List.nodup_append]
            refine ⟨hm, List.nodup_singleton t, ?_⟩
            intro a ha hat
            rw [List.mem_singleton] at hat
            subst hat
            rcases List.mem_map.mp ha with ⟨q, hq, hqt⟩
            exact hk (List.any_eq_true.mpr ⟨q, hq, by simp [hqt]⟩)
        · rw [if_neg hcond]
          exact hm
  unfold build_index
  exact key entries [] (by simp)

/-! ### Helper lemmas: plan structure -/

/-- Splitting plan membership by the three emitting rules. -/
theorem mem_plan_ops (cfg : Config) (filtered : List StockRecord)
    (existing : List CatalogEntry) (op : Operation) :
    op ∈ plan_ops cfg filtered existing ↔
      (∃ r ∈ filtered,
        create_update_op cfg (build_index cfg.blacklist_skus existing) r = some op) ∨
      op ∈ missing_sku_ops cfg filtered existing ∨
      op ∈ no_sku_ops cfg existing := by
  unfold plan_ops
  simp [List.mem_append, List.mem_filterMap]

/-- What a successfully produced create/update operation looks like. -/
theorem create_update_op_some (cfg : Config) (idx : List (String × CatalogEntry))
    (r : StockRecord) (op : Operation) (h : create_update_op cfg idx r = some op) :
    validate_sku r.sku = true ∧
      ((∃ e, index_find idx r.sku = some e ∧
          op = .updateStock e.id r.in_stock (cost_of cfg r)) ∨
        (index_find idx r.sku = none ∧ op = .create r)) := by
  unfold create_update_op at h
  by_cases hv : validate_sku r.sku = true
  · rw [if_pos hv] at h
    refine ⟨hv, ?_⟩
    cases hf : index_find idx r.sku with
    | some e =>
      rw [hf] at h
      left
      exact ⟨e, rfl, (Option.some.inj h).symm⟩
    | none =>
      rw [hf] at h
      right
      exact ⟨rfl, (Option.some.inj h).symm⟩
  · rw [if_neg hv] at h
    simp at h

/-- A valid indexed SKU yields exactly the update operation. -/
theorem create_update_op_update (cfg : Config) (idx : List (String × CatalogEntry))
    (r : StockRecord) (e : CatalogEntry) (hv : validate_sku r.sku = true)
    (hf : index_find idx r.sku = some e) :
    create_update_op cfg idx r =
      some (.updateStock e.id r.in_stock (cost_of cfg r)) := by
  unfold create_update_op
  rw [if_pos hv, hf]

/-- A valid unindexed SKU yields exactly the create operation. -/
theorem create_update_op_create (cfg : Config) (idx : List (String × CatalogEntry))
    (r : StockRecord) (hv : validate_sku r.sku = true)
    (hf : index_find idx r.sku = none) :
    create_update_op cfg idx r = some (.create r) := by
  unfold create_update_op
  rw [if_pos hv, hf]

/-- An invalid SKU yields no operation (skipped with a warning). -/
theorem create_update_op_invalid (cfg : Config) (idx : List (String × CatalogEntry))
    (r : StockRecord) (hv : validate_sku r.sku = false) :
    create_update_op cfg idx r = none := by
  unfold create_update_op
  rw [hv]
  simp

/-- What a missing-SKU zeroing operation certifies about its entry. -/
theorem missing_zero_op_some (cfg : Config) (filtered : List StockRecord)
    (e : CatalogEntry) (op : Operation)
    (h : missing_zero_op cfg filtered e = some op) :
    ∃ s, e.sku = some s ∧ s ≠ "" ∧ ¬ s ∈ json_skus filtered ∧
      ¬ s ∈ cfg.blacklist_skus ∧ op = .zeroStock e.id := by
  cases he : e.sku with
  | none =>
    simp only [missing_zero_op, he] at h
    exact Option.noConfusion h
  | some s =>
    simp only [missing_zero_op, he] at h
    by_cases hc : (decide (s ≠ "") && !decide (s ∈ json_skus filtered) &&
        !is_blacklisted cfg.blacklist_skus s) = true
    · rw [if_pos hc] at h
      have hcs := hc
      simp only [Bool.and_eq_true, decide_eq_true_eq, Bool.not_eq_true',
        decide_eq_false_iff_not, is_blacklisted] at hcs
      exact ⟨s, rfl, hcs.1.1, hcs.1.2, hcs.2, (Option.some.inj h).symm⟩
    · rw [if_neg hc] at h
      simp at h

/-- The missing-SKU rule fires on every qualifying entry. -/
theorem missing_zero_op_of (cfg : Config) (filtered : List StockRecord)
    (e : CatalogEntry) (s : String) (he : e.sku = some s) (h1 : s ≠ "")
    (h2 : ¬ s ∈ json_skus filtered) (h3 : ¬ s ∈ cfg.blacklist_skus) :
    missing_zero_op cfg filtered e = some (.zeroStock e.id) := by
  simp only [missing_zero_op, he]
  rw [if_pos]
  simp [h1, h2, is_blacklisted, h3]

/-- The no-SKU rule, characterised. -/
theorem no_sku_zero_op_iff (e : CatalogEntry) (op : Operation) :
    no_sku_zero_op e = some op ↔
      has_truthy_sku e = false ∧ op = .zeroStock e.id := by
  unfold no_sku_zero_op
  by_cases h : has_truthy_sku e = true
  · simp [h]
  · have hf : has_truthy_sku e = false := by simpa using h
    simp [hf, eq_comm]

/-- Membership in the missing-SKU rule output. -/
theorem mem_missing_sku_ops (cfg : Config) (filtered : List StockRecord)
    (existing : List CatalogEntry) (op : Operation)
    (h : op ∈ missing_sku_ops cfg filtered existing) :
    cfg.set_missing_sku_to_zero = true ∧
      ∃ e ∈ existing, missing_zero_op cfg filtered e = some op := by
  unfold missing_sku_ops at h
  by_cases hflag : cfg.set_missing_sku_to_zero = true
  · rw [if_pos hflag] at h
    exact ⟨hflag, List.mem_filterMap.mp h⟩
  · rw [if_neg hflag] at h
    simp at h

/-- The missing-SKU rule emits an operation for every qualifying entry. -/
theorem missing_sku_ops_mem (cfg : Config) (filtered : List StockRecord)
    (existing : List CatalogEntry) (e : CatalogEntry) (op : Operation)
    (hflag : cfg.set_missing_sku_to_zero = true) (he : e ∈ existing)
    (hop : missing_zero_op cfg filtered e = some op) :
    op ∈ missing_sku_ops cfg filtered existing := by
  unfold missing_sku_ops
  rw [if_pos hflag]
  exact List.mem_filterMap.mpr ⟨e, he, hop⟩

/-- Membership in the no-SKU rule output. -/
theorem mem_no_sku_ops (cfg : Config) (existing : List CatalogEntry)
    (op : Operation) (h : op ∈ no_sku_ops cfg existing) :
    cfg.set_no_sku_to_zero = true ∧
      ∃ e ∈ existing, no_sku_zero_op e = some op := by
  unfold no_sku_ops at h
  by_cases hflag : cfg.set_no_sku_to_zero = true
  · rw [if_pos hflag] at h
    exact ⟨hflag, List.mem_filterMap.mp h⟩
  · rw [if_neg hflag] at h
    simp at h

/-- The no-SKU rule emits an operation for every SKU-less entry. -/
theorem no_sku_ops_mem (cfg : Config) (existing : List CatalogEntry)
    (e : CatalogEntry) (op : Operation) (hflag : cfg.set_no_sku_to_zero = true)
    (he : e ∈ existing) (hop : no_sku_zero_op e = some op) :
    op ∈ no_sku_ops cfg existing := by
  unfold no_sku_ops
  rw [if_pos hflag]
  exact List.mem_filterMap.mpr ⟨e, he, hop⟩

/-- In a listing with pairwise-distinct ids, an id determines the entry. -/
theorem entry_id_inj : ∀ (l : List CatalogEntry),
    l.Pairwise (fun a b => a.id ≠ b.id) →
    ∀ a b : CatalogEntry, a ∈ l → b ∈ l → a.id = b.id → a = b := by
  intro l
  induction l with
  | nil =>
    intro _ a b ha
    cases ha
  | cons c l ih =>
    intro h a b ha hb hid
    rcases List.pairwise_cons.mp h with ⟨hc, hl⟩
    rcases List.mem_cons.mp ha with rfl | ha'
    · rcases List.mem_cons.mp hb with rfl | hb'
      · rfl
      · exact absurd hid (hc b hb')
    · rcases List.mem_cons.mp hb with rfl | hb'
      · exact absurd hid.symm (hc a ha')
      · exact ih hl a b ha' hb' hid


/-! ### Helper lemmas: the paginated listing fetch -/

/-- Successful pagination: if consecutive pages starting at `p` serve the
non-empty blocks of `L` and the page after them is empty, the loop returns
the concatenation of the blocks, given enough fuel. -/
theorem fetch_all_aux_ok (pages : Nat → Except String (List CatalogEntry)) :
    ∀ (L : List (List CatalogEntry)) (fuel p : Nat),
    (∀ j lj, L.get? j = some lj → pages (p + j) = .ok lj ∧ lj ≠ []) →
    pages (p + L.length) = .ok [] →
    fuel ≥ L.length + 1 →
    fetch_all_aux pages fuel p = some (.ok L.flatten) := by
  intro L
  induction L with
  | nil =>
    intro fuel p _ hend hfuel
    cases fuel with
    | zero => omega
    | succ f =>
      have hend' : pages p = .ok [] := by simpa using hend
      simp [fetch_all_aux, hend']
  | cons l L ih =>
    intro fuel p hpages hend hfuel
    cases fuel with
    | zero => simp at hfuel
    | succ f =>
      obtain ⟨hp0, hl0⟩ := hpages 0 l (by simp)
      have hp0' : pages p = .ok l := by simpa using hp0
      cases l with
      | nil => exact absurd rfl hl0
      | cons x xs =>
        have hrec : fetch_all_aux pages f (p + 1) = some (.ok L.flatten) := by
          apply ih
          · intro j lj hj
            have h := hpages (j + 1) lj (by simpa using hj)
            have harith : p + (j + 1) = p + 1 + j := by omega
            rw [harith] at h
            exact h
          · rw [show p + 1 + L.length = p + (L.length + 1) from by omega]
            simpa [List.length_cons] using hend
          · simp at hfuel
            omega
        simp [fetch_all_aux, hp0', hrec, List.flatten_cons]

/-- Failing pagination: if page `k` raises and all earlier pages from `p`
on are non-empty successes, the loop surfaces exactly that error. -/
theorem fetch_all_aux_error (pages : Nat → Except String (List CatalogEntry))
    (e : String) (k : Nat) :
    ∀ (fuel p : Nat), p ≤ k → fuel + p ≥ k + 1 →
    pages k = .error e →
    (∀ i, p ≤ i → i < k → ∃ l, l ≠ [] ∧ pages i = .ok l) →
    fetch_all_aux pages fuel p = some (.error e) := by
  intro fuel
  induction fuel with
  | zero =>
    intro p hpk hfuel _ _
    omega
  | succ f ih =>
    intro p hpk hfuel herr hok
    by_cases hpke : p = k
    · subst hpke
      simp [fetch_all_aux, herr]
    · have hlt : p < k := lt_of_le_of_ne hpk hpke
      obtain ⟨l, hl, hok0⟩ := hok p le_rfl hlt
      cases l with
      | nil => exact absurd rfl hl
      | cons x xs =>
        have hrec : fetch_all_aux pages f (p + 1) = some (.error e) := by
          apply ih
          · omega
          · omega
          · exact herr
          · intro i hi1 hi2
            exact hok i (by omega) hi2
        simp [fetch_all_aux, hok0, hrec]


/-- Evaluates `fetch_all_woo_products` on a listing served as the non-empty blocks
of `L`: consecutive pages from 1, stop at the first empty page, return the
in-order concatenation. -/
theorem fetch_all_pages_of_list (L : List (List CatalogEntry)) (fuel : Nat)
    (hne : ∀ l ∈ L, l ≠ []) (hfuel : fuel ≥ L.length + 1) :
    fetch_all_woo_products (pages_of_list L) fuel = some (.ok L.flatten) := by
  unfold fetch_all_woo_products
  apply fetch_all_aux_ok (pages_of_list L) L fuel 1
  · intro j lj hj
    constructor
    · unfold pages_of_list
      rw [show 1 + j - 1 = j from by omega, hj]
      rfl
    · exact hne lj (List.get?_mem hj)
  · unfold pages_of_list
    rw [show 1 + L.length - 1 = L.length from by omega,
      List.get?_eq_none.mpr le_rfl]
    rfl
  · exact hfuel

/-- A page error surfaces out of `fetch_all_woo_products` untouched. -/
theorem fetch_all_error_from (pages : Nat → Except String (List CatalogEntry))
    (e : String) (k fuel : Nat) (hk : 1 ≤ k) (hfuel : fuel ≥ k)
    (herr : pages k = .error e)
    (hok : ∀ i, 1 ≤ i → i < k → ∃ l, l ≠ [] ∧ pages i = .ok l) :
    fetch_all_woo_products pages fuel = some (.error e) := by
  unfold fetch_all_woo_products
  exact fetch_all_aux_error pages e k fuel 1 hk (by omega) herr hok

/-- A failing downstream listing makes `sync_products` raise before any
operation is submitted. -/
theorem sync_products_fetch_error (cfg : Config) (stock : List StockRecord)
    (pages : Nat → Except String (List CatalogEntry)) (fuel : Nat)
    (fails : Operation → Bool) (e : String)
    (h : fetch_all_woo_products pages fuel = some (.error e)) :
    sync_products cfg (.ok stock) pages fuel fails =
      some (.failedBeforeExec e) := by
  simp [sync_products, h]

/-- With both fetches successful, the run submits the whole plan and its
outcome is decided by whether some submitted operation ultimately fails. -/
theorem sync_products_exec (cfg : Config) (stock : List StockRecord)
    (pages : Nat → Except String (List CatalogEntry)) (fuel : Nat)
    (fails : Operation → Bool) (existing : List CatalogEntry)
    (h : fetch_all_woo_products pages fuel = some (.ok existing)) :
    sync_products cfg (.ok stock) pages fuel fails =
      some (if (plan_ops cfg (filter_stock cfg.blacklist_skus stock) existing).any fails
        then .execFailed (plan_ops cfg (filter_stock cfg.blacklist_skus stock) existing)
        else .doneOk (plan_ops cfg (filter_stock cfg.blacklist_skus stock) existing)) := by
  simp [sync_products, h]

/-- Falsy `p.get("sku")` means the SKU is absent or the empty string. -/
theorem has_truthy_sku_false (e : CatalogEntry) (h : has_truthy_sku e = false) :
    e.sku = none ∨ e.sku = some "" := by
  cases he : e.sku with
  | none =>
    left
    rfl
  | some t =>
    simp only [has_truthy_sku, he] at h
    right
    simp only [decide_eq_false_iff_not, not_not] at h
    rw [h]

/-- Membership characterisation of the stock filter. -/
theorem mem_filter_stock (bl : List String) (data : List StockRecord)
    (r : StockRecord) :
    r ∈ filter_stock bl data ↔
      r ∈ data ∧
        (r.item_spec = some "EU Spec" ∨ r.item_spec = some "Global spec") ∧
        ¬ r.sku ∈ bl := by
  unfold filter_stock
  rw [List.mem_filter]
  constructor
  · rintro ⟨hr, hc⟩
    simp only [Bool.and_eq_true, Bool.or_eq_true, beq_iff_eq, Bool.not_eq_true',
      is_blacklisted, decide_eq_false_iff_not] at hc
    exact ⟨hr, hc.1, hc.2⟩
  · rintro ⟨hr, hspec, hbl⟩
    refine ⟨hr, ?_⟩
    simp only [Bool.and_eq_true, Bool.or_eq_true, beq_iff_eq, Bool.not_eq_true',
      is_blacklisted, decide_eq_false_iff_not]
    exact ⟨hspec, hbl⟩

/-- Records surviving the stock filter are never blacklisted. -/
theorem filter_stock_not_blacklisted (bl : List String) (data : List StockRecord)
    (r : StockRecord) (hr : r ∈ filter_stock bl data) : ¬ r.sku ∈ bl :=
  ((mem_filter_stock bl data r).mp hr).2.2

/-- Counting one value in a `filterMap` image. -/
theorem count_filterMap_ops (f : StockRecord → Option Operation)
    (l : List StockRecord) (b : Operation) :
    (l.filterMap f).count b = l.countP (fun a => f a == some b) := by
  induction l with
  | nil => rfl
  | cons a l ih =>
    rw [List.filterMap_cons, List.countP_cons]
    cases hf : f a with
    | none =>
      have hb : (f a == some b) = false := by
        rw [hf]
        rfl
      simp [hb, ih]
    | some c =>
      rw [List.count_cons, ih]
      have hb : ((some c : Option Operation) == some b) = (c == b) := rfl
      rw [hb]


/-! ### Claim theorems -/

/-- C6 (code bug): the claim says `validate_sku s` is true iff `s` is
non-empty and consists only of ASCII letters, digits, hyphen, underscore.
The code's regex `^[a-zA-Z0-9_-]+$` under Python `re.match` also accepts a
single trailing newline (Python's `$` matches just before a final `'\n'`),
so `validate_sku "A\n"` returns true although `'\n'` is outside the
class: the spec states the evident intent and the code deviates on exactly
these inputs. -/
theorem C6_validate_sku_newline_bug :
    validate_sku "A\n" = true ∧ "A\n".data.all allowedSkuChar = false := by
  decide

/-- C7: the stock filter keeps a record iff its spec field is one of the
two eligible spec strings and its SKU is not blacklisted; the output is a
sublist of the input (relative order preserved); as a Lean function it is
pure by construction. -/
theorem C7_filter_stock_spec (bl : List String) (data : List StockRecord) :
    (∀ r : StockRecord, r ∈ filter_stock bl data ↔
      r ∈ data ∧
        (r.item_spec = some "EU Spec" ∨ r.item_spec = some "Global spec") ∧
        ¬ r.sku ∈ bl) ∧
    (filter_stock bl data).Sublist data := by
  constructor
  · intro r
    exact mem_filter_stock bl data r
  · unfold filter_stock
    exact List.filter_sublist data

/-- C7 witness: the characterisation applied at a concrete record. -/
theorem C7_witness :
    (⟨"A", some "EU Spec", 1, 2⟩ : StockRecord) ∈
      filter_stock ["X"] [⟨"A", some "EU Spec", 1, 2⟩] :=
  ((C7_filter_stock_spec ["X"] [⟨"A", some "EU Spec", 1, 2⟩]).1
    ⟨"A", some "EU Spec", 1, 2⟩).mpr (by decide)

/-- C4 counterexample: the claim says that with duplicate SKUs in the
listing the *first-seen* entry is kept, but the Python dict comprehension
overwrites, so the second entry with SKU "A" wins. -/
theorem C4_counterexample_first_seen :
    index_find (build_index [] [⟨1, some "A"⟩, ⟨2, some "A"⟩]) "A" =
      some ⟨2, some "A"⟩ ∧
    index_find (build_index [] [⟨1, some "A"⟩, ⟨2, some "A"⟩]) "A" ≠
      some ⟨1, some "A"⟩ := by
  decide

/-- C4 (amended): the catalog index never contains an entry with a
missing/empty or blacklisted SKU, has at most one entry per SKU, and when
the listing contains duplicates the *last-seen* qualifying entry is the
one kept. -/
theorem C4_build_index_invariants (bl : List String)
    (entries : List CatalogEntry) (s : String) :
    (∀ p ∈ build_index bl entries,
      p.2.sku = some p.1 ∧ p.1 ≠ "" ∧ ¬ p.1 ∈ bl) ∧
    ((build_index bl entries).map Prod.fst).Nodup ∧
    index_find (build_index bl entries) s =
      (entries.filter (entry_keyed bl s)).getLast? :=
  ⟨build_index_pairs bl entries, build_index_keys_nodup bl entries,
    index_find_build bl entries s⟩

/-- C4 witness: the invariants applied to a concrete duplicated listing. -/
theorem C4_witness :
    (⟨2, some "A"⟩ : CatalogEntry).sku = some "A" ∧ "A" ≠ "" ∧
      ¬ "A" ∈ ([] : List String) :=
  (C4_build_index_invariants [] [⟨1, some "A"⟩, ⟨2, some "A"⟩] "A").1
    ("A", ⟨2, some "A"⟩) (by decide)

/-- C5: with the missing-SKU flag on, every indexed entry whose SKU is
absent from the filtered upstream SKU set gets a ZeroStock; with the
no-SKU flag on, every entry of the unfiltered full listing lacking a
truthy SKU gets a ZeroStock; a disabled flag contributes no operations. -/
theorem C5_zero_rules (cfg : Config) (filtered : List StockRecord)
    (existing : List CatalogEntry) :
    (cfg.set_missing_sku_to_zero = true →
      ∀ s e, index_find (build_index cfg.blacklist_skus existing) s = some e →
        ¬ s ∈ json_skus filtered →
        .zeroStock e.id ∈ plan_ops cfg filtered existing) ∧
    (cfg.set_no_sku_to_zero = true →
      ∀ e ∈ existing, has_truthy_sku e = false →
        .zeroStock e.id ∈ plan_ops cfg filtered existing) ∧
    (cfg.set_missing_sku_to_zero = false →
      missing_sku_ops cfg filtered existing = []) ∧
    (cfg.set_no_sku_to_zero = false → no_sku_ops cfg existing = []) := by
  refine ⟨?_, ?_, ?_, ?_⟩
  · intro hflag s e hf hmiss
    obtain ⟨hee, hesku, hne, hnbl⟩ :=
      index_find_some cfg.blacklist_skus existing s e hf
    have hzo := missing_zero_op_of cfg filtered e s hesku hne hmiss hnbl
    have hmem := missing_sku_ops_mem cfg filtered existing e _ hflag hee hzo
    exact (mem_plan_ops cfg filtered existing _).mpr (Or.inr (Or.inl hmem))
  · intro hflag e hee htf
    have hzo : no_sku_zero_op e = some (.zeroStock e.id) :=
      (no_sku_zero_op_iff e _).mpr ⟨htf, rfl⟩
    have hmem := no_sku_ops_mem cfg existing e _ hflag hee hzo
    exact (mem_plan_ops cfg filtered existing _).mpr (Or.inr (Or.inr hmem))
  · intro hflag
    simp [missing_sku_ops, hflag]
  · intro hflag
    simp [no_sku_ops, hflag]

/-- C5 witness: a concrete indexed entry missing upstream is zeroed. -/
theorem C5_witness :
    (Operation.zeroStock 20) ∈
      plan_ops ⟨true, true, true, []⟩ [] [⟨20, some "GONE"⟩] :=
  (C5_zero_rules ⟨true, true, true, []⟩ [] [⟨20, some "GONE"⟩]).1 rfl
    "GONE" ⟨20, some "GONE"⟩ (by decide) (by decide)

/-- C8: an update/zero-stock call makes at most 3 attempts; it raises only
when all three attempts fail (and then exactly 3 attempts were made); the
sleeps between failed attempts are the exponential-backoff delays 1 then 2
seconds (doubling); a create makes exactly one attempt with no retry. -/
theorem C8_retry_policy (fails : Nat → Bool) (r : StockRecord) (i : Nat)
    (q : Int) (c : Option Int) :
    (update_product_run fails).2.1 ≤ 3 ∧
    ((update_product_run fails).1 = false ↔
      fails 0 = true ∧ fails 1 = true ∧ fails 2 = true) ∧
    ((update_product_run fails).1 = false → (update_product_run fails).2.1 = 3) ∧
    (update_product_run fails).2.2 =
      (if fails 0 then if fails 1 then [1, 2] else [1] else []) ∧
    op_attempt_count fails (.updateStock i q c) = (update_product_run fails).2.1 ∧
    op_attempt_count fails (.zeroStock i) = (update_product_run fails).2.1 ∧
    op_attempt_count fails (.create r) = 1 := by
  cases h0 : fails 0 <;> cases h1 : fails 1 <;> cases h2 : fails 2 <;>
    simp [update_product_run, update_product_go, op_attempt_count, h0, h1, h2]

/-- C8 witness: the policy evaluated on an always-failing call. -/
theorem C8_witness :
    (update_product_run (fun _ => true)).2.1 ≤ 3 ∧
    op_attempt_count (fun _ => true) (.create ⟨"A", none, 0, 0⟩) = 1 :=
  ⟨(C8_retry_policy (fun _ => true) ⟨"A", none, 0, 0⟩ 0 0 none).1,
    (C8_retry_policy (fun _ => true) ⟨"A", none, 0, 0⟩ 0 0 none).2.2.2.2.2.2⟩


/-- C1 counterexample: a run whose single create operation fails does not
exit with status zero — the failure re-raised by `future.result()` escapes
`sync_products`, `main` calls `sys.exit(1)`, and no "Done" state is
reached (there is also no RunSummary anywhere in the code). -/
theorem C1_counterexample_exit_status :
    sync_products ⟨false, false, false, []⟩
        (.ok [⟨"A", some "EU Spec", 7, 5⟩]) (fun _ => .ok []) 1
        (fun _ => true) =
      some (.execFailed [.create ⟨"A", some "EU Spec", 7, 5⟩]) ∧
    main_exit_code (.execFailed [.create ⟨"A", some "EU Spec", 7, 5⟩]) = 1 := by
  decide

/-- C1 (amended): when an individual operation ultimately fails, every
operation of the plan has still been submitted to the pool (siblings are
not aborted), but the failure propagates out of the result-collection
loop: the run ends in `execFailed` instead of the success state and the
process exits with status 1; only a failure-free plan reaches the success
state and exit status 0. -/
theorem C1_op_failure_propagates (cfg : Config) (stock : List StockRecord)
    (pages : Nat → Except String (List CatalogEntry)) (fuel : Nat)
    (fails : Operation → Bool) (existing : List CatalogEntry)
    (hfetch : fetch_all_woo_products pages fuel = some (.ok existing)) :
    ((plan_ops cfg (filter_stock cfg.blacklist_skus stock) existing).any fails = true →
      sync_products cfg (.ok stock) pages fuel fails =
        some (.execFailed
          (plan_ops cfg (filter_stock cfg.blacklist_skus stock) existing)) ∧
      executed_ops (.execFailed
          (plan_ops cfg (filter_stock cfg.blacklist_skus stock) existing)) =
        plan_ops cfg (filter_stock cfg.blacklist_skus stock) existing ∧
      main_exit_code (.execFailed
          (plan_ops cfg (filter_stock cfg.blacklist_skus stock) existing)) = 1) ∧
    ((plan_ops cfg (filter_stock cfg.blacklist_skus stock) existing).any fails = false →
      sync_products cfg (.ok stock) pages fuel fails =
        some (.doneOk
          (plan_ops cfg (filter_stock cfg.blacklist_skus stock) existing)) ∧
      main_exit_code (.doneOk
          (plan_ops cfg (filter_stock cfg.blacklist_skus stock) existing)) = 0) := by
  constructor
  · intro hany
    refine ⟨?_, rfl, rfl⟩
    rw [sync_products_exec cfg stock pages fuel fails existing hfetch]
    simp [hany]
  · intro hany
    refine ⟨?_, rfl⟩
    rw [sync_products_exec cfg stock pages fuel fails existing hfetch]
    simp [hany]

/-- C1 witness: a failure-free run reaches the success state, exit 0. -/
theorem C1_witness :
    sync_products ⟨false, false, false, []⟩
        (.ok [⟨"B", some "EU Spec", 7, 5⟩]) (fun _ => .ok []) 1
        (fun _ => false) =
      some (.doneOk (plan_ops ⟨false, false, false, []⟩
        (filter_stock [] [⟨"B", some "EU Spec", 7, 5⟩]) [])) ∧
    main_exit_code (.doneOk (plan_ops ⟨false, false, false, []⟩
        (filter_stock [] [⟨"B", some "EU Spec", 7, 5⟩]) [])) = 0 :=
  (C1_op_failure_propagates ⟨false, false, false, []⟩
    [⟨"B", some "EU Spec", 7, 5⟩] (fun _ => .ok []) 1 (fun _ => false) []
    (by rfl)).2 (by decide)

/-- C9: the paginated fetch serves consecutive pages from 1, stops exactly
at the first empty page and returns the in-order concatenation; a page
error propagates out unswallowed, the run fails before the execution
phase, no operation is executed and the process exits non-zero. -/
theorem C9_pagination_and_abort (L : List (List CatalogEntry)) (fuel : Nat)
    (pages : Nat → Except String (List CatalogEntry)) (e : String) (k : Nat)
    (cfg : Config) (stock : List StockRecord) (fails : Operation → Bool) :
    ((∀ l ∈ L, l ≠ []) → fuel ≥ L.length + 1 →
      fetch_all_woo_products (pages_of_list L) fuel = some (.ok L.flatten)) ∧
    (1 ≤ k → fuel ≥ k → pages k = .error e →
      (∀ i, 1 ≤ i → i < k → ∃ l, l ≠ [] ∧ pages i = .ok l) →
      fetch_all_woo_products pages fuel = some (.error e) ∧
      sync_products cfg (.ok stock) pages fuel fails =
        some (.failedBeforeExec e) ∧
      executed_ops (.failedBeforeExec e) = [] ∧
      main_exit_code (.failedBeforeExec e) = 1) := by
  constructor
  · intro hne hfuel
    exact fetch_all_pages_of_list L fuel hne hfuel
  · intro hk hfuel herr hok
    have hf := fetch_all_error_from pages e k fuel hk hfuel herr hok
    exact ⟨hf, sync_products_fetch_error cfg stock pages fuel fails e hf,
      rfl, rfl⟩

/-- C9 witness: page 3 errors after two non-empty pages; the error
surfaces and the run aborts with exit 1. -/
theorem C9_witness :
    fetch_all_woo_products
        (fun i => if i = 3
          then (Except.error "network" : Except String (List CatalogEntry))
          else .ok [⟨i, none⟩]) 3 = some (.error "network") ∧
    main_exit_code (.failedBeforeExec "network") = 1 :=
  have h := (C9_pagination_and_abort [] 3
      (fun i => if i = 3
        then (Except.error "network" : Except String (List CatalogEntry))
        else .ok [⟨i, none⟩])
      "network" 3 ⟨false, false, false, []⟩ [] (fun _ => false)).2
    (by omega) (by omega) (by rfl)
    (fun i h1 h2 => ⟨[⟨i, none⟩], List.cons_ne_nil _ _,
      by rw [if_neg (Nat.ne_of_lt h2)]⟩)
  ⟨h.1, h.2.2.2⟩

/-- C3: a blacklisted (hence non-empty, by the config parser) SKU is
dropped by the stock filter, absent from the catalog index, and — in a
listing with distinct ids — no operation of the plan references it,
directly or through the catalog entry its target id belongs to. -/
theorem C3_blacklist_never_referenced (cfg : Config) (data : List StockRecord)
    (existing : List CatalogEntry) (s : String)
    (hs : s ∈ cfg.blacklist_skus) (hne : s ≠ "")
    (hids : existing.Pairwise (fun a b => a.id ≠ b.id)) :
    (∀ r ∈ filter_stock cfg.blacklist_skus data, r.sku ≠ s) ∧
    index_find (build_index cfg.blacklist_skus existing) s = none ∧
    (∀ op ∈ plan_ops cfg (filter_stock cfg.blacklist_skus data) existing,
      ¬ op_references existing s op) := by
  refine ⟨?_, index_find_blacklisted cfg.blacklist_skus existing s hs, ?_⟩
  · intro r hr heq
    exact filter_stock_not_blacklisted cfg.blacklist_skus data r hr (heq ▸ hs)
  · intro op hop
    rcases (mem_plan_ops cfg (filter_stock cfg.blacklist_skus data)
        existing op).mp hop with ⟨r, hr, hcu⟩ | hmem | hmem
    · obtain ⟨hv, hcase⟩ := create_update_op_some cfg _ r op hcu
      rcases hcase with ⟨e, hf, rfl⟩ | ⟨hf, rfl⟩
      · intro href
        simp only [op_references] at href
        obtain ⟨e2, he2, hid, hsku⟩ := href
        obtain ⟨heme, hesku, _, _⟩ :=
          index_find_some cfg.blacklist_skus existing r.sku e hf
        have heq := entry_id_inj existing hids e2 e he2 heme hid
        rw [heq, hesku] at hsku
        exact filter_stock_not_blacklisted cfg.blacklist_skus data r hr
          ((Option.some.inj hsku) ▸ hs)
      · intro href
        simp only [op_references] at href
        exact filter_stock_not_blacklisted cfg.blacklist_skus data r hr
          (href ▸ hs)
    · obtain ⟨hflag, e, he, hzo⟩ :=
        mem_missing_sku_ops cfg _ existing op hmem
      obtain ⟨t, hesku, ht1, ht2, ht3, rfl⟩ :=
        missing_zero_op_some cfg _ e op hzo
      intro href
      simp only [op_references] at href
      obtain ⟨e2, he2, hid, hsku⟩ := href
      have heq := entry_id_inj existing hids e2 e he2 he hid
      rw [heq, hesku] at hsku
      exact ht3 ((Option.some.inj hsku) ▸ hs)
    · obtain ⟨hflag, e, he, hzo⟩ := mem_no_sku_ops cfg existing op hmem
      obtain ⟨htf, rfl⟩ := (no_sku_zero_op_iff e op).mp hzo
      intro href
      simp only [op_references] at href
      obtain ⟨e2, he2, hid, hsku⟩ := href
      have heq := entry_id_inj existing hids e2 e he2 he hid
      rw [heq] at hsku
      rcases has_truthy_sku_false e htf with hnone | hempty
      · rw [hnone] at hsku
        exact Option.noConfusion hsku
      · rw [hempty] at hsku
        exact hne (Option.some.inj hsku).symm

/-- C3 witness: the blacklisted SKU "X" is not a key of the index. -/
theorem C3_witness :
    index_find (build_index ["X"] [⟨50, some "X"⟩]) "X" = none :=
  (C3_blacklist_never_referenced ⟨true, true, true, ["X"]⟩
    [⟨"X", some "EU Spec", 1, 1⟩] [⟨50, some "X"⟩] "X" (by decide)
    (by decide) (by simp)).2.1

/-- C10 counterexample: for a filtered record whose *empty* SKU fails
validation, the claim's conclusion is false — the catalog entry bearing
that same (empty) SKU is "falsy" for the no-SKU rule and *does* receive a
ZeroStock when that flag is enabled. -/
theorem C10_counterexample_empty_sku :
    (⟨"", some "EU Spec", 1, 1⟩ : StockRecord) ∈
        filter_stock [] [⟨"", some "EU Spec", 1, 1⟩] ∧
    validate_sku "" = false ∧
    (⟨7, some ""⟩ : CatalogEntry).sku =
      some (⟨"", some "EU Spec", 1, 1⟩ : StockRecord).sku ∧
    (Operation.zeroStock 7) ∈
      plan_ops ⟨true, true, true, []⟩
        (filter_stock [] [⟨"", some "EU Spec", 1, 1⟩]) [⟨7, some ""⟩] := by
  decide

/-- C10 (amended): if a filtered record's *non-empty* SKU fails
validation, no create targets that SKU, the SKU still counts as present in
the filtered upstream SKU set, and — in a listing with distinct ids — a
catalog entry bearing that SKU receives neither an update nor a zeroing,
so its stock is left untouched by the run. -/
theorem C10_invalid_sku_frame (cfg : Config) (filtered : List StockRecord)
    (existing : List CatalogEntry) (r : StockRecord) (e : CatalogEntry)
    (hids : existing.Pairwise (fun a b => a.id ≠ b.id))
    (hr : r ∈ filtered) (hv : validate_sku r.sku = false) (hne : r.sku ≠ "")
    (he : e ∈ existing) (hesku : e.sku = some r.sku) :
    (∀ r', .create r' ∈ plan_ops cfg filtered existing → r'.sku ≠ r.sku) ∧
    r.sku ∈ json_skus filtered ∧
    (∀ q c, ¬ .updateStock e.id q c ∈ plan_ops cfg filtered existing) ∧
    ¬ .zeroStock e.id ∈ plan_ops cfg filtered existing := by
  have hjson : r.sku ∈ json_skus filtered := by
    unfold json_skus
    exact List.mem_map.mpr ⟨r, hr, rfl⟩
  refine ⟨?_, hjson, ?_, ?_⟩
  · intro r2 hop heq
    rcases (mem_plan_ops cfg filtered existing _).mp hop with
      ⟨x, hx, hcu⟩ | hmem | hmem
    · obtain ⟨hv2, hcase⟩ := create_update_op_some cfg _ x _ hcu
      rcases hcase with ⟨e2, hf, hop2⟩ | ⟨hf, hop2⟩
      · exact Operation.noConfusion hop2
      · have hrx : r2 = x := by
          injection hop2
        rw [← hrx, heq] at hv2
        rw [hv] at hv2
        exact Bool.noConfusion hv2
    · obtain ⟨hflag, e2, he2, hzo⟩ := mem_missing_sku_ops cfg _ existing _ hmem
      obtain ⟨t, _, _, _, _, hop2⟩ := missing_zero_op_some cfg _ e2 _ hzo
      exact Operation.noConfusion hop2
    · obtain ⟨hflag, e2, he2, hzo⟩ := mem_no_sku_ops cfg existing _ hmem
      obtain ⟨_, hop2⟩ := (no_sku_zero_op_iff e2 _).mp hzo
      exact Operation.noConfusion hop2
  · intro q c hop
    rcases (mem_plan_ops cfg filtered existing _).mp hop with
      ⟨x, hx, hcu⟩ | hmem | hmem
    · obtain ⟨hv2, hcase⟩ := create_update_op_some cfg _ x _ hcu
      rcases hcase with ⟨e2, hf, hop2⟩ | ⟨hf, hop2⟩
      · have hid : e.id = e2.id := by
          injection hop2 with h1 h2 h3
        obtain ⟨heme, hesku2, _, _⟩ :=
          index_find_some cfg.blacklist_skus existing x.sku e2 hf
        have heq2 := entry_id_inj existing hids e e2 he heme hid
        rw [heq2, hesku2] at hesku
        rw [(Option.some.inj hesku).symm] at hv
        rw [hv2] at hv
        exact Bool.noConfusion hv
      · exact Operation.noConfusion hop2
    · obtain ⟨hflag, e2, he2, hzo⟩ := mem_missing_sku_ops cfg _ existing _ hmem
      obtain ⟨t, _, _, _, _, hop2⟩ := missing_zero_op_some cfg _ e2 _ hzo
      exact Operation.noConfusion hop2
    · obtain ⟨hflag, e2, he2, hzo⟩ := mem_no_sku_ops cfg existing _ hmem
      obtain ⟨_, hop2⟩ := (no_sku_zero_op_iff e2 _).mp hzo
      exact Operation.noConfusion hop2
  · intro hop
    rcases (mem_plan_ops cfg filtered existing _).mp hop with
      ⟨x, hx, hcu⟩ | hmem | hmem
    · obtain ⟨hv2, hcase⟩ := create_update_op_some cfg _ x _ hcu
      rcases hcase with ⟨e2, hf, hop2⟩ | ⟨hf, hop2⟩
      · exact Operation.noConfusion hop2
      · exact Operation.noConfusion hop2
    · obtain ⟨hflag, e2, he2, hzo⟩ := mem_missing_sku_ops cfg _ existing _ hmem
      obtain ⟨t, hesku2, ht1, ht2, ht3, hop2⟩ :=
        missing_zero_op_some cfg _ e2 _ hzo
      have hid : e.id = e2.id := by
        injection hop2
      have heq2 := entry_id_inj existing hids e e2 he he2 hid
      rw [heq2, hesku2] at hesku
      have : t = r.sku := Option.some.inj hesku
      rw [this] at ht2
      exact ht2 hjson
    · obtain ⟨hflag, e2, he2, hzo⟩ := mem_no_sku_ops cfg existing _ hmem
      obtain ⟨htf, hop2⟩ := (no_sku_zero_op_iff e2 _).mp hzo
      have hid : e.id = e2.id := by
        injection hop2
      have heq2 := entry_id_inj existing hids e e2 he he2 hid
      rw [heq2] at hesku
      rcases has_truthy_sku_false e2 htf with hnone | hempty
      · rw [hnone] at hesku
        exact Option.noConfusion hesku
      · rw [hempty] at hesku
        exact hne (Option.some.inj hesku).symm

/-- C10 witness: a catalog entry carrying the invalid (non-empty) SKU
"bad sku" receives no zeroing operation. -/
theorem C10_witness :
    ¬ (Operation.zeroStock 9) ∈
      plan_ops ⟨true, true, true, []⟩
        (filter_stock [] [⟨"bad sku", some "EU Spec", 1, 1⟩])
        [⟨9, some "bad sku"⟩] :=
  (C10_invalid_sku_frame ⟨true, true, true, []⟩
    (filter_stock [] [⟨"bad sku", some "EU Spec", 1, 1⟩])
    [⟨9, some "bad sku"⟩] ⟨"bad sku", some "EU Spec", 1, 1⟩
    ⟨9, some "bad sku"⟩ (by simp) (by decide) (by decide) (by decide)
    (by decide) (by decide)).2.2.2


/-- A record that is the only carrier of its SKU occurs exactly once. -/
theorem count_self_of_unique_sku (filtered : List StockRecord) (r : StockRecord)
    (hr : r ∈ filtered)
    (huniq : filtered.filter (fun x => x.sku == r.sku) = [r]) :
    filtered.count r = 1 := by
  apply Nat.le_antisymm
  · have h1 : filtered.count r ≤ filtered.countP (fun x => x.sku == r.sku) := by
      rw [List.count_eq_countP]
      apply List.countP_mono_left
      intro x _ hxr
      have hxr2 : x = r := by simpa using hxr
      simp [hxr2]
    rw [List.countP_eq_length_filter, huniq] at h1
    simpa using h1
  · exact List.one_le_count_iff.mpr hr

/-- C2: every filtered record with a valid SKU yields exactly one plan
operation: when its SKU is indexed, exactly one UpdateStock of the indexed
entry's id with the record's stock quantity and its price as cost price
iff cost tracking is on — and no Create of that SKU; when it is not
indexed, exactly one Create of the record; no Create in the plan ever
targets an indexed SKU.  (Ids are pairwise distinct in the listing and the
SKU is unique in the filtered feed, per the data model.) -/
theorem C2_plan_per_record (cfg : Config) (filtered : List StockRecord)
    (existing : List CatalogEntry) (r : StockRecord)
    (hids : existing.Pairwise (fun a b => a.id ≠ b.id))
    (hr : r ∈ filtered) (hv : validate_sku r.sku = true)
    (huniq : filtered.filter (fun x => x.sku == r.sku) = [r]) :
    (∀ e, index_find (build_index cfg.blacklist_skus existing) r.sku = some e →
      (plan_ops cfg filtered existing).count
          (.updateStock e.id r.in_stock (cost_of cfg r)) = 1 ∧
      ∀ r2, .create r2 ∈ plan_ops cfg filtered existing → r2.sku ≠ r.sku) ∧
    (index_find (build_index cfg.blacklist_skus existing) r.sku = none →
      (plan_ops cfg filtered existing).count (.create r) = 1) ∧
    (∀ r2, .create r2 ∈ plan_ops cfg filtered existing →
      index_find (build_index cfg.blacklist_skus existing) r2.sku = none) ∧
    cost_of cfg r = (if cfg.track_cost_price then some r.price else none) := by
  have hplan : plan_ops cfg filtered existing =
      filtered.filterMap
          (create_update_op cfg (build_index cfg.blacklist_skus existing)) ++
        missing_sku_ops cfg filtered existing ++ no_sku_ops cfg existing := rfl
  have hcount1 := count_self_of_unique_sku filtered r hr huniq
  have hnocreate : ∀ r2, .create r2 ∈ plan_ops cfg filtered existing →
      index_find (build_index cfg.blacklist_skus existing) r2.sku = none := by
    intro r2 hop
    rcases (mem_plan_ops cfg filtered existing _).mp hop with
      ⟨x, hx, hcu⟩ | hmem | hmem
    · obtain ⟨hv2, hcase⟩ := create_update_op_some cfg _ x _ hcu
      rcases hcase with ⟨e2, hf2, hop2⟩ | ⟨hf2, hop2⟩
      · exact Operation.noConfusion hop2
      · have hrx : r2 = x := by
          injection hop2
        rw [hrx]
        exact hf2
    · obtain ⟨hflag, e2, he2, hzo⟩ := mem_missing_sku_ops cfg _ existing _ hmem
      obtain ⟨t, _, _, _, _, hop2⟩ := missing_zero_op_some cfg _ e2 _ hzo
      exact Operation.noConfusion hop2
    · obtain ⟨hflag, e2, he2, hzo⟩ := mem_no_sku_ops cfg existing _ hmem
      obtain ⟨_, hop2⟩ := (no_sku_zero_op_iff e2 _).mp hzo
      exact Operation.noConfusion hop2
  refine ⟨?_, ?_, hnocreate, rfl⟩
  · intro e hfe
    constructor
    · have hBzero : (missing_sku_ops cfg filtered existing).count
          (Operation.updateStock e.id r.in_stock (cost_of cfg r)) = 0 := by
        rw [List.count_eq_zero]
        intro hmem
        obtain ⟨hflag, e2, he2, hzo⟩ :=
          mem_missing_sku_ops cfg _ existing _ hmem
        obtain ⟨t, _, _, _, _, hop2⟩ := missing_zero_op_some cfg _ e2 _ hzo
        exact Operation.noConfusion hop2
      have hCzero : (no_sku_ops cfg existing).count
          (Operation.updateStock e.id r.in_stock (cost_of cfg r)) = 0 := by
        rw [List.count_eq_zero]
        intro hmem
        obtain ⟨hflag, e2, he2, hzo⟩ := mem_no_sku_ops cfg existing _ hmem
        obtain ⟨_, hop2⟩ := (no_sku_zero_op_iff e2 _).mp hzo
        exact Operation.noConfusion hop2
      have hA : (filtered.filterMap
            (create_update_op cfg (build_index cfg.blacklist_skus existing))).count
          (Operation.updateStock e.id r.in_stock (cost_of cfg r)) = 1 := by
        rw [count_filterMap_ops]
        have hiff : ∀ x ∈ filtered,
            ((create_update_op cfg (build_index cfg.blacklist_skus existing) x ==
              some (Operation.updateStock e.id r.in_stock (cost_of cfg r))) = true ↔
              (x == r) = true) := by
          intro x hx
          constructor
          · intro hbeq
            have hfx : create_update_op cfg
                (build_index cfg.blacklist_skus existing) x =
                some (Operation.updateStock e.id r.in_stock (cost_of cfg r)) := by
              simpa using hbeq
            obtain ⟨hv2, hcase⟩ := create_update_op_some cfg _ x _ hfx
            rcases hcase with ⟨e2, hf2, hop2⟩ | ⟨hf2, hop2⟩
            · have hid : e.id = e2.id := by
                injection hop2 with h1 h2 h3
              obtain ⟨heme2, hesku2, _, _⟩ :=
                index_find_some cfg.blacklist_skus existing x.sku e2 hf2
              obtain ⟨heme, hesku, _, _⟩ :=
                index_find_some cfg.blacklist_skus existing r.sku e hfe
              have heq2 := entry_id_inj existing hids e e2 heme heme2 hid
              rw [heq2, hesku2] at hesku
              have hxr : x.sku = r.sku := Option.some.inj hesku
              have hxmem : x ∈ filtered.filter (fun y => y.sku == r.sku) :=
                List.mem_filter.mpr ⟨hx, by simp [hxr]⟩
              rw [huniq] at hxmem
              have hx2 : x = r := by simpa using hxmem
              simp [hx2]
            · exact Operation.noConfusion hop2
          · intro hxr
            have hx2 : x = r := by simpa using hxr
            rw [hx2,
              create_update_op_update cfg
                (build_index cfg.blacklist_skus existing) r e hv hfe]
            simp
        rw [List.countP_congr hiff, ← List.count_eq_countP]
        exact hcount1
      rw [hplan, List.count_append, List.count_append, hA, hBzero, hCzero]
    · intro r2 hop heq
      have hn := hnocreate r2 hop
      rw [heq, hfe] at hn
      exact Option.noConfusion hn
  · intro hnone
    have hBzero : (missing_sku_ops cfg filtered existing).count
        (Operation.create r) = 0 := by
      rw [List.count_eq_zero]
      intro hmem
      obtain ⟨hflag, e2, he2, hzo⟩ := mem_missing_sku_ops cfg _ existing _ hmem
      obtain ⟨t, _, _, _, _, hop2⟩ := missing_zero_op_some cfg _ e2 _ hzo
      exact Operation.noConfusion hop2
    have hCzero : (no_sku_ops cfg existing).count (Operation.create r) = 0 := by
      rw [List.count_eq_zero]
      intro hmem
      obtain ⟨hflag, e2, he2, hzo⟩ := mem_no_sku_ops cfg existing _ hmem
      obtain ⟨_, hop2⟩ := (no_sku_zero_op_iff e2 _).mp hzo
      exact Operation.noConfusion hop2
    have hA : (filtered.filterMap
          (create_update_op cfg (build_index cfg.blacklist_skus existing))).count
        (Operation.create r) = 1 := by
      rw [count_filterMap_ops]
      have hiff : ∀ x ∈ filtered,
          ((create_update_op cfg (build_index cfg.blacklist_skus existing) x ==
            some (Operation.create r)) = true ↔ (x == r) = true) := by
        intro x hx
        constructor
        · intro hbeq
          have hfx : create_update_op cfg
              (build_index cfg.blacklist_skus existing) x =
              some (Operation.create r) := by
            simpa using hbeq
          obtain ⟨hv2, hcase⟩ := create_update_op_some cfg _ x _ hfx
          rcases hcase with ⟨e2, hf2, hop2⟩ | ⟨hf2, hop2⟩
          · exact Operation.noConfusion hop2
          · have hrx : r = x := by
              injection hop2
            simp [hrx]
        · intro hxr
          have hx2 : x = r := by simpa using hxr
          rw [hx2,
            create_update_op_create cfg
              (build_index cfg.blacklist_skus existing) r hv hnone]
          simp
      rw [List.countP_congr hiff, ← List.count_eq_countP]
      exact hcount1
    rw [hplan, List.count_append, List.count_append, hA, hBzero, hCzero]

/-- C2 witness: a concrete indexed record yields exactly one update
carrying its stock and cost price. -/
theorem C2_witness :
    (plan_ops ⟨true, true, true, []⟩ [⟨"A", some "EU Spec", 7, 5⟩]
        [⟨10, some "A"⟩]).count (.updateStock 10 5 (some 7)) = 1 :=
  ((C2_plan_per_record ⟨true, true, true, []⟩ [⟨"A", some "EU Spec", 7, 5⟩]
      [⟨10, some "A"⟩] ⟨"A", some "EU Spec", 7, 5⟩ (by simp) (by decide)
      (by decide) (by decide)).1 ⟨10, some "A"⟩ (by decide)).1


/-- The configured blacklist never contains the empty string: the parser
keeps only comma-separated items that strip to something non-empty. -/
theorem parse_blacklist_no_empty (s : String) : ¬ "" ∈ parse_blacklist s := by
  unfold parse_blacklist
  intro h
  rcases List.mem_filter.mp h with ⟨_, hne⟩
  simp at hne

end WooSync
